import Mathlib

/-!
Verification of the background task queue and search-indexing subsystem of the
blockchainml email worker, as a shallow embedding in Lean 4.

The embedding follows the TypeScript source:
  * namespace QueueManager  — src/services/storage/queue.ts (class QueueManager)
  * namespace JobScheduler  — src/jobs/scheduler.ts (class JobScheduler)
  * namespace JobWorker     — src/jobs/workers.ts (class JobWorker)
  * namespace SearchIndexer — src/services/search/query.ts (class SearchIndexer,
    the full variant with KEYS and calculateScore)
  * namespace SearchOptimizer — src/services/search/query.ts (class SearchOptimizer)

Redis sorted sets are modelled as association lists of (score, member) with the
member unique per set (zadd updates the score of an existing member in place,
otherwise appends).  Members are the task records themselves: JSON.stringify
in the source is injective on records that differ in any field, so record
equality models serialized-member equality.  Redis breaks score ties by member
bytes; the concrete states used in the theorems below all have pairwise
distinct scores, so the tie rule is never exercised and the model resolves
ties by list position.  Hashes are modelled as first-match association lists.
JavaScript floating point arithmetic is idealized as real arithmetic.
-/

/-- TaskType from src/types/queue.ts: the closed set of task kinds. -/
inductive TaskType where
  | processEmail
  | sendEmail
  | processAttachments
  | generateAnalytics
  | cleanupStorage
  | indexSearch
  | updateThread
  | sendNotification
deriving DecidableEq

/-- TaskPriority (QueueManager) and JobPriority (JobScheduler): HIGH, NORMAL, LOW. -/
inductive TaskPriority where
  | high
  | normal
  | low
deriving DecidableEq

/-- TaskStatus from src/types/queue.ts; JobStatus of src/jobs adds RUNNING,
which is modelled by the same constructor set extended with running. -/
inductive TaskStatus where
  | pending
  | scheduled
  | processing
  | running
  | completed
  | failed
  | cancelled
deriving DecidableEq

/-- Priority weight table shared verbatim by QueueManager.calculatePriorityScore
(queue.ts lines 267-271) and JobScheduler.calculatePriorityScore
(scheduler.ts lines 379-383): HIGH = 1000000, NORMAL = 100000, LOW = 10000. -/
def priorityWeight : TaskPriority → Int
  | .high => 1000000
  | .normal => 100000
  | .low => 10000

/-- One entry of task.metadata.dependentTasks (queue.ts line 290):
the type and enqueue options of a follow-up task.  The source passes
dependentTask.options through to enqueueTask; the model carries the
option fields one level deep, which is all the claims exercise. -/
structure DepSpec where
  depType : TaskType
  priority : Option TaskPriority
  scheduledFor : Option Int
  maxAttempts : Option Nat
deriving DecidableEq

/-- The options argument of QueueManager.enqueueTask (queue.ts lines 131-136).
dependentTasks models options.metadata.dependentTasks; the other metadata
entries are irrelevant to the claims. -/
structure EnqueueOptions where
  priority : Option TaskPriority := none
  scheduledFor : Option Int := none
  maxAttempts : Option Nat := none
  dependentTasks : List DepSpec := []
deriving DecidableEq

/-- QueueTask (src/types/queue.ts): the durable task record.  Timestamps are
epoch milliseconds (Int).  The payload is omitted: no claim depends on it and
task identity in all theorems below goes through distinct ids. -/
structure QueueTask where
  id : String
  type : TaskType
  priority : TaskPriority
  status : TaskStatus
  attempts : Nat
  maxAttempts : Nat
  createdAt : Int
  scheduledFor : Int
  lastAttemptAt : Option Int
  completedAt : Option Int
  error : Option String
  dependentTasks : List DepSpec
deriving DecidableEq

/-- The record written to the email:status hash by
QueueManager.updateTaskStatus (queue.ts lines 366-374). -/
structure StatusRecord where
  id : String
  type : TaskType
  status : TaskStatus
  attempts : Nat
  lastAttemptAt : Option Int
  error : Option String
  completedAt : Option Int
deriving DecidableEq

/-- Redis ZADD on a sorted set modelled as an association list of
(score, member): update the score of an existing member, else append. -/
def zadd {α : Type} [DecidableEq α] : List (Int × α) → Int → α → List (Int × α)
  | [], score, member => [(score, member)]
  | e :: rest, score, member =>
      if e.2 = member then (score, member) :: rest else e :: zadd rest score member

/-- Redis ZREM: drop the entries whose member equals the given one. -/
def zrem {α : Type} [DecidableEq α] (s : List (Int × α)) (member : α) : List (Int × α) :=
  s.filter (fun e => ¬ (e.2 = member))

/-- Smallest-score entry of a sorted set (Redis ZPOPMIN / ascending ZRANGE head).
Ties resolve to the earliest entry; all theorems below use distinct scores. -/
def zminEntry {α : Type} : List (Int × α) → Option (Int × α)
  | [] => none
  | x :: xs => some (xs.foldl (fun best e => if e.1 < best.1 then e else best) x)

/-- ZRANGE key -inf now BYSCORE LIMIT 0 1 (queue.ts lines 178-183): the
smallest-score entry among those with score at most maxScore. -/
def zrangeByScoreFirst {α : Type} (s : List (Int × α)) (maxScore : Int) :
    Option (Int × α) :=
  zminEntry (s.filter (fun e => e.1 ≤ maxScore))

/-- Redis HSET on a first-match association list: the new binding shadows
any older binding of the same field. -/
def hset {β : Type} (h : List (String × β)) (field : String) (v : β) :
    List (String × β) :=
  (field, v) :: h

/-- First-match lookup in an association list (Redis HGET on a hash). -/
def hlookup {β : Type} : List (String × β) → String → Option β
  | [], _ => none
  | e :: rest, field => if e.1 = field then some e.2 else hlookup rest field

namespace QueueManager

/-- The durable state owned by QueueManager: the email:queue, email:processing
and email:failed sorted sets and the email:status hash (queue.ts lines 59-62). -/
structure QueueState where
  queue : List (Int × QueueTask)
  processing : List (Int × QueueTask)
  failedSet : List (Int × QueueTask)
  statusHash : List (String × StatusRecord)
deriving DecidableEq

/-- The empty queue state. -/
def emptyState : QueueState :=
  { queue := [], processing := [], failedSet := [], statusHash := [] }

/-- QueueManager.calculatePriorityScore (queue.ts lines 264-274):
scheduledFor minus now plus the priority weight. -/
def calculatePriorityScore (task : QueueTask) (now : Int) : Int :=
  task.scheduledFor - now + priorityWeight task.priority

/-- The task record built by QueueManager.enqueueTask (queue.ts lines 139-154).
The JavaScript expression options.maxAttempts || 3 treats 0 as absent. -/
def buildTask (id : String) (type : TaskType) (options : EnqueueOptions)
    (now : Int) : QueueTask :=
  { id := id
    type := type
    priority := options.priority.getD .normal
    status := .pending
    attempts := 0
    maxAttempts :=
      match options.maxAttempts with
      | some n => if n = 0 then 3 else n
      | none => 3
    createdAt := now
    scheduledFor := options.scheduledFor.getD now
    lastAttemptAt := none
    completedAt := none
    error := none
    dependentTasks := options.dependentTasks }

/-- The status object written by QueueManager.updateTaskStatus
(queue.ts lines 366-374). -/
def statusOf (task : QueueTask) : StatusRecord :=
  { id := task.id
    type := task.type
    status := task.status
    attempts := task.attempts
    lastAttemptAt := task.lastAttemptAt
    error := task.error
    completedAt := task.completedAt }

/-- QueueManager.updateTaskStatus (queue.ts lines 365-379): HSET of the
status record under the task id. -/
def updateTaskStatus (st : QueueState) (task : QueueTask) : QueueState :=
  { st with statusHash := hset st.statusHash task.id (statusOf task) }

/-- QueueManager.enqueueTask (queue.ts lines 128-172): build the task,
ZADD it to email:queue under its priority score, write the status hash. -/
def enqueueTask (st : QueueState) (id : String) (type : TaskType)
    (options : EnqueueOptions) (now : Int) : QueueState :=
  let task := buildTask id type options now
  let priorityScore := calculatePriorityScore task now
  updateTaskStatus { st with queue := zadd st.queue priorityScore task } task

/-- Number of minutes added by QueueManager.retryTask (queue.ts line 316):
backoffMinutes = 2 ^ (attempts - 1).  Only reached with attempts at least 1. -/
def retryBackoffMinutes (attempts : Nat) : Int :=
  2 ^ (attempts - 1)

/-- QueueManager.retryTask (queue.ts lines 315-340): reschedule the failed
task 2 ^ (attempts - 1) minutes into the future by ZADD into email:queue,
and write the status hash.  Nothing is removed from email:processing. -/
def retryTask (st : QueueState) (task : QueueTask) (now : Int) : QueueState :=
  let nextAttempt := now + retryBackoffMinutes task.attempts * 60000
  let updatedTask : QueueTask :=
    { task with status := .scheduled, scheduledFor := nextAttempt }
  let priorityScore := calculatePriorityScore updatedTask now
  updateTaskStatus { st with queue := zadd st.queue priorityScore updatedTask }
    updatedTask

/-- QueueManager.handleFailedTask (queue.ts lines 342-363): ZADD the task into
email:failed with the failure time as score and write the status hash.
Nothing is removed from email:processing. -/
def handleFailedTask (st : QueueState) (task : QueueTask) (now : Int) :
    QueueState :=
  updateTaskStatus { st with failedSet := zadd st.failedSet now task } task

/-- QueueManager.handleTaskCompletion (queue.ts lines 287-301): enqueue every
metadata.dependentTasks entry in order.  There is no try/catch around the
loop, so a failing enqueue aborts it and the error propagates; depFail gives
the index of the first enqueue that fails (none when all succeed), newIds the
fresh ids consumed by the successful enqueues.  Returns the new state and
whether the loop ran to completion. -/
def enqueueDependents (st : QueueState) (deps : List DepSpec)
    (depFail : Option Nat) (newIds : List String) (now : Int) (i : Nat) :
    QueueState × Bool :=
  match deps with
  | [] => (st, true)
  | d :: rest =>
      if depFail = some i then (st, false)
      else
        let st1 := enqueueTask st (newIds.headD "dep") d.depType
          { priority := d.priority
            scheduledFor := d.scheduledFor
            maxAttempts := d.maxAttempts
            dependentTasks := [] } now
        enqueueDependents st1 rest depFail newIds.tail now (i + 1)

/-- QueueManager.processTask (queue.ts lines 209-242).  The task status and
attempts are mutated, the handler runs (handlerOk tells whether it throws),
and on success finalizeTask (queue.ts lines 276-285) runs inside the same try:
ZREM of the completed record from email:processing (which never matches the
serialization stored at lease time), the status-hash update, and
handleTaskCompletion.  Any error, including a dependent enqueue failure,
lands in the catch, which retries or dead-letters the task. -/
def processTask (st : QueueState) (task : QueueTask) (now : Int)
    (handlerOk : Bool) (depFail : Option Nat) (newIds : List String) :
    QueueState :=
  let t1 : QueueTask :=
    { task with
      status := .processing
      attempts := task.attempts + 1
      lastAttemptAt := some now }
  if handlerOk then
    let t2 : QueueTask := { t1 with status := .completed, completedAt := some now }
    let st1 := { st with processing := zrem st.processing t2 }
    let st2 := updateTaskStatus st1 t2
    match enqueueDependents st2 t2.dependentTasks depFail newIds now 0 with
    | (st3, true) => st3
    | (st3, false) =>
        let t3 : QueueTask :=
          { t2 with
            status := .failed
            error := some "Failed to enqueue task" }
        if t3.attempts < t3.maxAttempts then retryTask st3 t3 now
        else handleFailedTask st3 t3 now
  else
    let t3 : QueueTask :=
      { t1 with
        status := .failed
        error := some "handler error" }
    if t3.attempts < t3.maxAttempts then retryTask st t3 now
    else handleFailedTask st t3 now

/-- QueueManager.processNextTask (queue.ts lines 174-207): take the
smallest-score entry of email:queue with score at most now, ZREM it from the
queue, ZADD a copy with status processing into email:processing with the
lease time as score, then run processTask on the original record. -/
def processNextTask (st : QueueState) (now : Int) (handlerOk : Bool)
    (depFail : Option Nat) (newIds : List String) : QueueState :=
  match zrangeByScoreFirst st.queue now with
  | none => st
  | some e =>
      let task := e.2
      let st1 := { st with queue := zrem st.queue task }
      let leased : QueueTask :=
        { task with
          status := .processing
          lastAttemptAt := some now }
      let st2 := { st1 with processing := zadd st1.processing now leased }
      processTask st2 task now handlerOk depFail newIds

/-- Whether some member of the sorted set carries the given task id. -/
def idInPartition (s : List (Int × QueueTask)) (id : String) : Bool :=
  s.any (fun e => e.2.id = id)

end QueueManager

namespace JobScheduler

/-- The backoff discriminator of a retry strategy (scheduler.ts lines 24-28). -/
inductive Backoff where
  | exponential
  | linear
deriving DecidableEq

/-- RetryStrategy (scheduler.ts lines 24-28). -/
structure RetryStrategy where
  maxAttempts : Nat
  backoff : Backoff
  initialDelay : Int
deriving DecidableEq

/-- The default retry strategy built from DEFAULTS (scheduler.ts lines 69-75
and 98-102): 3 attempts, exponential, 1000 ms initial delay. -/
def defaultRetryStrategy : RetryStrategy :=
  { maxAttempts := 3, backoff := .exponential, initialDelay := 1000 }

/-- Job (scheduler.ts lines 32-49).  Fields not used by any claim (data, env,
timeout, tags, lastError) are omitted; task identity in the theorems goes
through distinct ids. -/
structure Job where
  id : String
  jobType : TaskType
  priority : TaskPriority
  status : TaskStatus
  attempts : Nat
  maxAttempts : Nat
  retryStrategy : RetryStrategy
  createdAt : Int
  scheduledFor : Int
  error : Option String
  progress : Nat
deriving DecidableEq

/-- The options argument of JobScheduler.scheduleJob (scheduler.ts lines 12-22). -/
structure JobOptions where
  priority : Option TaskPriority := none
  scheduledFor : Option Int := none
  retryStrategy : Option RetryStrategy := none
deriving DecidableEq

/-- JobScheduler.scheduleJob (scheduler.ts lines 120-160): builds a fresh job
record with attempts = 0; the JavaScript expressions use || so a zero
maxAttempts falls back to the default 3. -/
def scheduleJob (jobType : TaskType) (options : JobOptions) (now : Int)
    (newId : String) : Job :=
  { id := newId
    jobType := jobType
    priority := options.priority.getD .normal
    status := if options.scheduledFor.isSome then .scheduled else .pending
    attempts := 0
    maxAttempts :=
      match options.retryStrategy with
      | some rs => if rs.maxAttempts = 0 then 3 else rs.maxAttempts
      | none => 3
    retryStrategy := options.retryStrategy.getD defaultRetryStrategy
    createdAt := now
    scheduledFor := options.scheduledFor.getD now
    error := none
    progress := 0 }

/-- JobScheduler.calculateRetryDelay (scheduler.ts lines 290-300): none once
attempts reaches maxAttempts, otherwise initialDelay * 2 ^ attempts for
exponential backoff and initialDelay * (attempts + 1) for linear.  No cap is
applied. -/
def calculateRetryDelay (job : Job) : Option Int :=
  if job.attempts ≥ job.retryStrategy.maxAttempts then none
  else
    match job.retryStrategy.backoff with
    | .exponential => some (job.retryStrategy.initialDelay * 2 ^ job.attempts)
    | .linear => some (job.retryStrategy.initialDelay * (job.attempts + 1))

/-- JobScheduler.calculatePriorityScore (scheduler.ts lines 377-386):
now minus the priority weight, so the highest priority gets the smallest
score and is popped first by ZPOPMIN. -/
def calculatePriorityScore (job : Job) (now : Int) : Int :=
  now - priorityWeight job.priority

/-- The jobs:queue effect of JobScheduler.saveJob (scheduler.ts lines 162-198)
for a job without a scheduledFor option: ZADD under the priority score. -/
def saveJobToQueue (queue : List (Int × Job)) (job : Job) (now : Int) :
    List (Int × Job) :=
  zadd queue (calculatePriorityScore job now) job

/-- JobScheduler.getNextJob (scheduler.ts lines 331-351) restricted to the
pop: ZPOPMIN of jobs:queue, marking the job running. -/
def getNextJob (queue : List (Int × Job)) : Option Job :=
  (zminEntry queue).map (fun e => { e.2 with status := .running })

end JobScheduler

namespace JobWorker

open JobScheduler

/-- JobWorker.retryJob (workers.ts lines 168-197): compute the backoff from
the already-incremented attempts counter, then hand the job back to
JobScheduler.scheduleJob, which builds a brand-new record (fresh id,
attempts = 0) scheduled for now + backoffDelay. -/
def retryJob (job : Job) (now : Int) (newId : String) : Job :=
  let initialDelay := job.retryStrategy.initialDelay
  let backoffDelay :=
    match job.retryStrategy.backoff with
    | .exponential => 2 ^ job.attempts * initialDelay
    | .linear => job.attempts * initialDelay
  scheduleJob job.jobType
    { priority := some job.priority
      scheduledFor := some (now + backoffDelay)
      retryStrategy := some job.retryStrategy } now newId

/-- JobWorker.handleFailedJob (workers.ts lines 136-166): mark the job failed,
increment attempts, and either reschedule through retryJob (left) or leave it
for the dead-letter queue (right). -/
def handleFailedJob (job : Job) (errMsg : String) (now : Int) (newId : String) :
    Job ⊕ Job :=
  let failedJob : Job :=
    { job with
      status := .failed
      error := some errMsg
      attempts := job.attempts + 1 }
  if failedJob.attempts < failedJob.retryStrategy.maxAttempts then
    Sum.inl (retryJob failedJob now newId)
  else
    Sum.inr failedJob

end JobWorker

namespace SearchIndexer

/-- Word characters of the JavaScript regex class backslash-w:
ASCII letters, digits and underscore. -/
def isWordChar (c : Char) : Bool :=
  c.isAlphanum || c = '_'

/-- Whitespace characters of the JavaScript regex class backslash-s,
restricted to the ASCII whitespace the claims exercise. -/
def isSpaceChar (c : Char) : Bool :=
  c = ' ' || c = '\t' || c = '\n' || c = '\r'

/-- The first replace of tokenizeContent (query.ts line 1606): every character
that is neither a word character nor whitespace becomes a space. -/
def cleanChars (s : List Char) : List Char :=
  s.map (fun c => if isWordChar c || isSpaceChar c then c else ' ')

/-- The second replace of tokenizeContent (query.ts line 1606): each maximal
run of whitespace becomes a single space.  The flag records whether the
previous character belonged to a whitespace run. -/
def collapseSpacesAux : List Char → Bool → List Char
  | [], _ => []
  | c :: rest, prevSpace =>
      if isSpaceChar c then
        if prevSpace then collapseSpacesAux rest true
        else ' ' :: collapseSpacesAux rest true
      else c :: collapseSpacesAux rest false

/-- Collapse whitespace runs to single spaces. -/
def collapseSpaces (s : List Char) : List Char :=
  collapseSpacesAux s false

/-- JavaScript String.split on a single space: empty fields are kept. -/
def splitOnSpaceAux : List Char → List Char → List String
  | [], cur => [String.mk cur.reverse]
  | c :: rest, cur =>
      if c = ' ' then String.mk cur.reverse :: splitOnSpaceAux rest []
      else splitOnSpaceAux rest (c :: cur)

/-- Split a character list on spaces. -/
def splitOnSpace (s : List Char) : List String :=
  splitOnSpaceAux s []

/-- SearchIndexer.getStopwords (query.ts lines 1631-1701): the four closed
stop-word lists; an unknown language silently falls back to the English list
(the JavaScript lookup uses || with the en list as default).  The final
German entry reproduces the mojibake present in the source file. -/
def getStopwords (language : String) : List String :=
  if language = "en" then
    ["the", "is", "at", "which", "on", "and", "or", "but", "in", "with",
     "to", "of", "for", "a", "an"]
  else if language = "es" then
    ["el", "la", "los", "las", "un", "una", "y", "o", "pero", "en", "con",
     "de", "por", "para"]
  else if language = "fr" then
    ["le", "la", "les", "un", "une", "et", "ou", "mais", "dans", "avec",
     "de", "pour", "par"]
  else if language = "de" then
    ["der", "die", "das", "ein", "eine", "und", "oder", "aber", "in", "mit",
     "von", "f√ºr"]
  else
    ["the", "is", "at", "which", "on", "and", "or", "but", "in", "with",
     "to", "of", "for", "a", "an"]

/-- JavaScript String.toLowerCase, character by character. -/
def toLowerCase (s : String) : String :=
  String.mk (s.data.map Char.toLower)

/-- SearchIndexer.tokenizeContent (query.ts lines 1601-1612): lowercase,
replace non-word characters with spaces, collapse whitespace, split on
spaces, keep tokens longer than 2 characters, drop stop words. -/
def tokenizeContent (content : String) (language : String) : List String :=
  let normalized := toLowerCase content
  let cleaned := collapseSpaces (cleanChars normalized.data)
  let tokens := (splitOnSpace cleaned).filter (fun token => token.length > 2)
  let stopwords := getStopwords language
  tokens.filter (fun token => ¬ stopwords.contains token)

/-- One step of the reduce in SearchIndexer.calculateTermFrequencies
(query.ts lines 1614-1622): increment the count of the token, or append a
fresh entry with count 1. -/
def bumpToken : List (String × Nat) → String → List (String × Nat)
  | [], token => [(token, 1)]
  | e :: rest, token =>
      if e.1 = token then (e.1, e.2 + 1) :: rest else e :: bumpToken rest token

/-- SearchIndexer.calculateTermFrequencies (query.ts lines 1614-1622):
fold the token list into an association list of occurrence counts. -/
def calculateTermFrequencies (tokens : List String) : List (String × Nat) :=
  tokens.foldl bumpToken []

/-- A search document as indexed (src/services/search/types.ts): the claims
only touch id, type and content. -/
structure SearchDocument where
  id : String
  type : String
  content : String
deriving DecidableEq

/-- SearchIndexer.calculateScore (query.ts lines 1624-1629):
log(1 + frequency) times 1 / sqrt(content length). -/
noncomputable def calculateScore (frequency : Nat) (document : SearchDocument) : ℝ :=
  Real.log (1 + (frequency : ℝ)) * (1 / Real.sqrt (document.content.length : ℝ))

/-- The inverted-index key for a term: KEYS.INVERTED followed by the term
(query.ts lines 1298-1304 and 1355). -/
def invertedKey (term : String) : String :=
  "search:inverted:" ++ term

/-- The ZADD writes issued to the inverted index by SearchIndexer.indexDocument
(query.ts lines 1353-1359): for each term of the document one entry
(key, member, score) with member type:id and score calculateScore. -/
noncomputable def indexDocumentPostingWrites (document : SearchDocument)
    (language : String) : List (String × String × ℝ) :=
  let tokens := tokenizeContent document.content language
  let termFrequencies := calculateTermFrequencies tokens
  termFrequencies.map (fun tf =>
    (invertedKey tf.1, document.type ++ ":" ++ document.id,
      calculateScore tf.2 document))

end SearchIndexer

namespace SearchOptimizer

/-- SearchOptimizer.updateTermFrequencies (query.ts lines 430-483), action on
one posting list: with n members and idf = log(n + 1), every member score s
is rewritten to (s / n) * idf.  An empty posting is left unchanged. -/
noncomputable def updateTermFrequencies (entries : List (String × ℝ)) :
    List (String × ℝ) :=
  if entries = [] then entries
  else
    let totalDocs : ℝ := (entries.length : ℝ)
    let idf : ℝ := Real.log (totalDocs + 1)
    entries.map (fun e => (e.1, e.2 / totalDocs * idf))

/-- A metadata field value as seen by hgetall after deserialization:
null, a string, or some other JSON value. -/
inductive MetaValue where
  | vnull
  | vstr : String → MetaValue
  | vother
deriving DecidableEq

/-- A Redis value: a plain string or a hash of fields. -/
inductive KVValue where
  | str : String → KVValue
  | hash : List (String × MetaValue) → KVValue
deriving DecidableEq

/-- SearchOptimizer.optimizeMetadataStructure (query.ts lines 537-560):
drop null values, then truncate string values longer than 1000 characters to
their first 1000 characters followed by an ellipsis. -/
def optimizeMetadataStructure (metadata : List (String × MetaValue)) :
    List (String × MetaValue) :=
  let cleaned := metadata.filter (fun kv => ¬ (kv.2 = MetaValue.vnull))
  cleaned.map (fun kv =>
    match kv.2 with
    | .vstr s =>
        if s.length > 1000 then (kv.1, .vstr (String.mk (s.data.take 1000) ++ "..."))
        else kv
    | _ => kv)

/-- A placeholder serialization of a field map standing for JSON.stringify:
the claims only need that the optimized map is stored as one plain string. -/
def encodeMetaValue : MetaValue → String
  | .vnull => "null"
  | .vstr s => "\"" ++ s ++ "\""
  | .vother => "\x7b\x7d"

/-- Serialize a field map to a single string (stands for JSON.stringify). -/
def encodeMeta (metadata : List (String × MetaValue)) : String :=
  String.intercalate "," (metadata.map (fun kv => kv.1 ++ ":" ++ encodeMetaValue kv.2))

/-- Redis SET on the key-value store modelled as a first-match association
list: the new binding shadows any older binding. -/
def kvSet (kv : List (String × KVValue)) (key : String) (v : KVValue) :
    List (String × KVValue) :=
  (key, v) :: kv

/-- Redis DEL: remove every binding of the key. -/
def kvDel (kv : List (String × KVValue)) (key : String) :
    List (String × KVValue) :=
  kv.filter (fun e => ¬ (e.1 = key))

/-- Redis HGET against the typed store: ok none for a missing key, the field
lookup for a hash, and a WRONGTYPE error when the key holds a plain string. -/
def hgetKV (kv : List (String × KVValue)) (key field : String) :
    Except String (Option MetaValue) :=
  match hlookup kv key with
  | none => Except.ok none
  | some (.hash fields) => Except.ok (hlookup fields field)
  | some (.str _) => Except.error "WRONGTYPE"

/-- SearchOptimizer.optimizeMetadata (query.ts lines 485-535), action on one
metadata key: read the hash, optimize the field map, then pipeline DEL of the
key followed by a plain-string SET of the serialized map.  A key that does
not hold a hash is left unchanged. -/
def optimizeMetadataKey (kv : List (String × KVValue)) (key : String) :
    List (String × KVValue) :=
  match hlookup kv key with
  | some (.hash fields) =>
      let optimized := optimizeMetadataStructure fields
      kvSet (kvDel kv key) key (.str (encodeMeta optimized))
  | _ => kv

/-- The metadata key for a document type: KEYS.METADATA followed by the type
(query.ts lines 1298-1304). -/
def metadataKey (docType : String) : String :=
  "search:metadata:" ++ docType

end SearchOptimizer

namespace Scenario

open QueueManager JobScheduler

/-- A fixed wall-clock instant (epoch milliseconds) used by the concrete runs. -/
def T0 : Int := 1760000000000

/-- Two tasks enqueued simultaneously at T0 with equal scheduledFor = T0:
A with priority low, then B with priority high (queue.ts enqueueTask). -/
def twoPriorityState : QueueState :=
  enqueueTask
    (enqueueTask emptyState "A" .sendNotification
      { priority := some .low, scheduledFor := some T0 } T0)
    "B" .sendNotification { priority := some .high, scheduledFor := some T0 } T0

/-- The corresponding pair of jobs in the JobScheduler model, saved to
jobs:queue at T0 without a scheduledFor option. -/
def schedulerQueue : List (Int × Job) :=
  saveJobToQueue
    (saveJobToQueue [] (scheduleJob .sendNotification { priority := some .low } T0 "A") T0)
    (scheduleJob .sendNotification { priority := some .high } T0 "B") T0

/-- A single normal-priority task enqueued at T0 (attempts 0, maxAttempts 3). -/
def pendingState : QueueState :=
  enqueueTask emptyState "t1" .sendNotification { priority := some .normal } T0

/-- pendingState after one processNextTask tick whose handler throws. -/
def failRunState : QueueState := processNextTask pendingState T0 false none []

/-- pendingState after one processNextTask tick whose handler succeeds. -/
def successRunState : QueueState := processNextTask pendingState T0 true none []

/-- A task as it reaches retryTask after its first failure: attempts = 1. -/
def failedOnceTask : QueueTask :=
  { buildTask "t1" .sendNotification { priority := some .normal } T0 with
    attempts := 1
    status := .failed
    error := some "handler error" }

/-- A fresh job with the default retry strategy, as built by
JobScheduler.scheduleJob: attempts = 0, maxAttempts = 3. -/
def freshJob : Job :=
  scheduleJob .sendNotification { priority := some .normal } T0 "j1"

/-- One dependent-task entry for the completion hook. -/
def depSpec1 : DepSpec :=
  { depType := .indexSearch, priority := none, scheduledFor := none,
    maxAttempts := none }

/-- A normal task carrying metadata.dependentTasks = [depSpec1]. -/
def depParentTask : QueueTask :=
  buildTask "t1" .sendNotification
    { priority := some .normal, dependentTasks := [depSpec1] } T0

/-- depParentTask enqueued at T0. -/
def depParentState : QueueState :=
  enqueueTask emptyState "t1" .sendNotification
    { priority := some .normal, dependentTasks := [depSpec1] } T0

/-- depParentState after a tick where the handler succeeds but the enqueue of
the first dependent task fails. -/
def depFailState : QueueState := processNextTask depParentState T0 true (some 0) ["d1"]

/-- The round-trip document of spec scenario 5. -/
def helloDoc : SearchIndexer.SearchDocument :=
  { id := "d1", type := "email", content := "Hello world hello" }

/-- A concrete metadata hash for search:metadata:email. -/
def metaFields0 : List (String × SearchOptimizer.MetaValue) :=
  [("d1", .vstr "business"), ("d2", .vnull)]

/-- A concrete key-value store holding that hash. -/
def metaStore0 : List (String × SearchOptimizer.KVValue) :=
  [(SearchOptimizer.metadataKey "email", .hash metaFields0)]


/-- Auxiliary observer: the rescheduled job produced by
JobWorker.handleFailedJob, if it took the retry branch. -/
def workerRescheduled : Job ⊕ Job → Option Job
  | Sum.inl r => some r
  | Sum.inr _ => none

end Scenario

open QueueManager JobScheduler Scenario

/-- Claim C1 (code bug evidence): with tasks A (low) and B (high) enqueued
simultaneously with equal scheduledFor, the QueueManager lease
(processNextTask) selects A, the LOW priority task, first: its priority score
scheduledFor - now + weight gives high the largest score while the fetch takes
the smallest score at most now.  The JobScheduler variant of the same
computation (now - weight, ZPOPMIN) returns the high job first, which is the
ordering the claim and the source comment describe. -/
theorem c1_queueManager_pops_low_before_high :
    (zrangeByScoreFirst twoPriorityState.queue T0).map (fun e => e.2.id) = some "A"
    ∧ (zrangeByScoreFirst twoPriorityState.queue T0).map (fun e => e.2.priority)
        = some TaskPriority.low
    ∧ (getNextJob schedulerQueue).map (fun j => j.id) = some "B"
    ∧ (getNextJob schedulerQueue).map (fun j => j.priority) = some TaskPriority.high := by
  decide

/-- Claim C2 (code bug evidence): after a lease whose handler fails and
retryTask reschedules the task, the id t1 is simultaneously a member of the
email:processing sorted set (the leased copy is never removed) and of the
email:queue sorted set (the retried copy), violating partition disjointness. -/
theorem c2_retried_task_in_two_partitions :
    idInPartition failRunState.processing "t1" = true
    ∧ idInPartition failRunState.queue "t1" = true := by
  decide

/-- Claim C3 (code bug evidence): after a successful lease/complete cycle the
status hash records completed with a completedAt timestamp, but the task is
still a member of email:processing: finalizeTask issues ZREM with the
completed record, which never equals the processing-status record stored at
lease time. -/
theorem c3_completed_task_still_in_processing :
    (hlookup successRunState.statusHash "t1").map (fun r => r.status)
        = some TaskStatus.completed
    ∧ (hlookup successRunState.statusHash "t1").map (fun r => r.completedAt)
        = some (some T0)
    ∧ idInPartition successRunState.processing "t1" = true := by
  decide

/-- Claim C4 (counterexample): for the first retry of failedOnceTask the
member rescheduled by QueueManager.retryTask carries
scheduledFor = now + 60000 ms (one minute, from backoffMinutes =
2 ^ (attempts - 1)), which exceeds the claimed cap of 30000 ms and differs
from the claimed now + min(1000 * 2 ^ 0, 30000). -/
theorem c4_backoff_exceeds_cap_counterexample :
    ((QueueManager.retryTask QueueManager.emptyState failedOnceTask T0).queue.map
        (fun e => e.2.scheduledFor)) = [T0 + 60000]
    ∧ (60000 : Int) > 30000
    ∧ (60000 : Int) ≠ min (1000 * 2 ^ (1 - 1)) 30000 := by
  decide


/-- Claim C5 (code bug evidence): freshJob fails once, so handleFailedJob
increments its attempts to 1 and takes the retry branch; but the rescheduled
record built by retryJob through scheduleJob has attempts = 0, smaller than
the value 1 at the time of failure, so attempts are not monotone.  (The
scheduledFor offset 2000 = 2 ^ 1 * 1000 also shows the backoff reading the
already-incremented counter.) -/
theorem c5_reschedule_resets_attempts :
    (workerRescheduled (JobWorker.handleFailedJob freshJob "boom" T0 "j2")).map
        (fun r => r.attempts) = some 0
    ∧ (workerRescheduled (JobWorker.handleFailedJob freshJob "boom" T0 "j2")).map
        (fun r => r.scheduledFor) = some (T0 + 2000)
    ∧ freshJob.attempts + 1 = 1
    ∧ (0 : Nat) < 1 := by
  decide

/-- Claim C6 (counterexample): the handler of depParentTask succeeds but the
enqueue of its dependent task fails; the final status hash entry for t1 is
scheduled (the parent was re-marked failed and rescheduled for retry), not
completed, so the parent is not left recorded as completed. -/
theorem c6_dependent_enqueue_failure_counterexample :
    (hlookup depFailState.statusHash "t1").map (fun r => r.status)
        = some TaskStatus.scheduled
    ∧ (hlookup depFailState.statusHash "t1").map (fun r => r.status)
        ≠ some TaskStatus.completed := by
  decide

/-- Claim C8 (counterexample): for the unsupported language it, getStopwords
silently returns the English list and tokenizeContent succeeds, dropping the
English stop word the; no validation error is raised. -/
theorem c8_unsupported_language_counterexample :
    SearchIndexer.getStopwords "it" = SearchIndexer.getStopwords "en"
    ∧ SearchIndexer.tokenizeContent "the quick blockchain" "it"
        = ["quick", "blockchain"] := by
  decide

/-- ZADD always leaves the entry (score, member) in the set. -/
theorem zadd_self_mem {α : Type} [DecidableEq α] (s : List (Int × α))
    (score : Int) (m : α) : (score, m) ∈ zadd s score m := by
  induction s with
  | nil => simp [zadd]
  | cons e rest ih =>
      by_cases h : e.2 = m <;> simp [zadd, h, ih]

/-- Claim C4 (amended): QueueManager.retryTask reschedules the n-th retry at
exactly now + 2 ^ (attempts - 1) minutes with no cap, while
JobScheduler.calculateRetryDelay returns initialDelay * 2 ^ attempts for
exponential backoff with no cap; under the default strategy (maxAttempts 3,
initialDelay 1000 ms) every delay it returns is at most 30000 ms only because
maxAttempts bounds the exponent. -/
theorem c4_backoff_formulas_amended :
    (∀ (st : QueueManager.QueueState) (task : QueueTask) (now : Int),
      1 ≤ task.attempts →
      (QueueManager.calculatePriorityScore
          { task with
            status := .scheduled
            scheduledFor := now + 2 ^ (task.attempts - 1) * 60000 } now,
        ({ task with
            status := .scheduled
            scheduledFor := now + 2 ^ (task.attempts - 1) * 60000 } : QueueTask))
        ∈ (QueueManager.retryTask st task now).queue)
    ∧ (∀ job : Job, job.attempts < job.retryStrategy.maxAttempts →
        job.retryStrategy.backoff = .exponential →
        calculateRetryDelay job
          = some (job.retryStrategy.initialDelay * 2 ^ job.attempts))
    ∧ (∀ job : Job, job.retryStrategy = defaultRetryStrategy →
        ∀ d : Int, calculateRetryDelay job = some d → d ≤ 30000) := by
  refine ⟨?_, ?_, ?_⟩
  · intro st task now _
    simp only [QueueManager.retryTask, QueueManager.updateTaskStatus,
      QueueManager.retryBackoffMinutes]
    exact zadd_self_mem _ _ _
  · intro job hlt hexp
    simp [calculateRetryDelay, Nat.not_le.mpr hlt, hexp]
  · intro job hdef d hd
    have hmax : job.retryStrategy.maxAttempts = 3 := by rw [hdef]; rfl
    have hinit : job.retryStrategy.initialDelay = 1000 := by rw [hdef]; rfl
    have hexp : job.retryStrategy.backoff = Backoff.exponential := by rw [hdef]; rfl
    by_cases hlt : job.attempts < 3
    · have heq : calculateRetryDelay job = some (1000 * 2 ^ job.attempts) := by
        simp [calculateRetryDelay, hmax, hinit, hexp, Nat.not_le.mpr hlt]
      rw [heq, Option.some_inj] at hd
      have ha : job.attempts ≤ 2 := by omega
      have h2 : (2 : Int) ^ job.attempts ≤ 2 ^ 2 :=
        pow_le_pow_right₀ (by norm_num) ha
      have h3 : (1000 : Int) * 2 ^ job.attempts ≤ 1000 * 2 ^ 2 :=
        mul_le_mul_of_nonneg_left h2 (by norm_num)
      rw [← hd]
      linarith
    · have : calculateRetryDelay job = none := by
        simp [calculateRetryDelay, hmax, Nat.not_lt.mp hlt]
      rw [this] at hd
      exact absurd hd (by simp)

/-- Claim C6 (amended): when the handler succeeds but enqueueing the first
dependent task fails, the error propagates out of the completion hook into
the catch of processTask, which re-marks the parent failed and (attempts
permitting) reschedules it: the final status hash entry for the parent is
scheduled, not completed. -/
theorem c6_dependent_enqueue_failure_amended
    (st : QueueManager.QueueState) (task : QueueTask) (now : Int)
    (newIds : List String)
    (hdeps : task.dependentTasks ≠ [])
    (hatt : task.attempts + 1 < task.maxAttempts) :
    (hlookup (QueueManager.processTask st task now true (some 0) newIds).statusHash
        task.id).map (fun r => r.status) = some TaskStatus.scheduled := by
  obtain ⟨d, rest, hd⟩ : ∃ d rest, task.dependentTasks = d :: rest := by
    cases h : task.dependentTasks with
    | nil => exact absurd h hdeps
    | cons d rest => exact ⟨d, rest, rfl⟩
  simp [QueueManager.processTask, hd, QueueManager.enqueueDependents, hatt,
    QueueManager.retryTask, QueueManager.updateTaskStatus, hset, hlookup,
    QueueManager.statusOf]

/-- Witness for the amended claim C6 at the concrete parent task. -/
theorem c6_dependent_enqueue_failure_amended_witness :
    depParentTask.dependentTasks ≠ []
    ∧ depParentTask.attempts + 1 < depParentTask.maxAttempts
    ∧ (hlookup (QueueManager.processTask QueueManager.emptyState depParentTask T0
          true (some 0) ["d1"]).statusHash depParentTask.id).map (fun r => r.status)
        = some TaskStatus.scheduled :=
  ⟨by decide, by decide,
    c6_dependent_enqueue_failure_amended QueueManager.emptyState depParentTask T0
      ["d1"] (by decide) (by decide)⟩

/-- Witness for the amended claim C4 at concrete inputs: the first retry of
failedOnceTask, and the default-strategy freshJob (delay 1000 * 2 ^ 0). -/
theorem c4_backoff_formulas_amended_witness :
    1 ≤ failedOnceTask.attempts
    ∧ (QueueManager.calculatePriorityScore
        { failedOnceTask with
          status := .scheduled
          scheduledFor := T0 + 2 ^ (failedOnceTask.attempts - 1) * 60000 } T0,
       ({ failedOnceTask with
          status := .scheduled
          scheduledFor := T0 + 2 ^ (failedOnceTask.attempts - 1) * 60000 } : QueueTask))
        ∈ (QueueManager.retryTask QueueManager.emptyState failedOnceTask T0).queue
    ∧ calculateRetryDelay freshJob
        = some (freshJob.retryStrategy.initialDelay * 2 ^ freshJob.attempts)
    ∧ (1000 : Int) ≤ 30000 :=
  ⟨by decide,
    c4_backoff_formulas_amended.1 QueueManager.emptyState failedOnceTask T0 (by decide),
    c4_backoff_formulas_amended.2.1 freshJob (by decide) (by decide),
    c4_backoff_formulas_amended.2.2 freshJob (by decide) 1000 (by decide)⟩

/-- Claim C7 (counterexample): on the one-member posting email:d1 with score
1, one optimizer pass rewrites the score to log 2 and a second pass to
(log 2)^2, which differs from log 2 because 0 < log 2 < 1; the
recompute-term-frequencies pass is not idempotent on posting scores. -/
theorem c7_optimizer_not_idempotent_counterexample :
    SearchOptimizer.updateTermFrequencies
        (SearchOptimizer.updateTermFrequencies [("email:d1", (1 : ℝ))])
      ≠ SearchOptimizer.updateTermFrequencies [("email:d1", (1 : ℝ))] := by
  have h0 : (0 : ℝ) < Real.log 2 := Real.log_pos (by norm_num)
  have h1 : Real.log 2 < 1 := by
    have h := Real.log_lt_sub_one_of_pos (x := 2) (by norm_num) (by norm_num)
    linarith
  intro h
  have h2 : (1 : ℝ) / 1 * Real.log (1 + 1) / 1 * Real.log (1 + 1)
      = 1 / 1 * Real.log (1 + 1) := by
    have := congrArg (fun l => ((l.headD ("", 0)).2 : ℝ)) h
    simpa [SearchOptimizer.updateTermFrequencies] using this
  have h3 : Real.log 2 * Real.log 2 = Real.log 2 := by
    have : ((1 : ℝ) + 1) = 2 := by norm_num
    rw [this] at h2
    field_simp at h2
    linarith [h2]
  nlinarith [h0, h1, h3]

/-- Claim C7 (amended): running the recompute pass twice multiplies every
posting score by log(n + 1) / n twice, where n is the member count (which
both runs preserve); the pass is therefore a rescaling, idempotent only where
that factor is 1 or a score is 0. -/
theorem c7_optimizer_second_run_scales_amended (entries : List (String × ℝ)) :
    SearchOptimizer.updateTermFrequencies
        (SearchOptimizer.updateTermFrequencies entries)
      = entries.map (fun e =>
          (e.1, e.2 * (Real.log ((entries.length : ℝ) + 1) / (entries.length : ℝ)) ^ 2)) := by
  by_cases h : entries = []
  · subst h
    simp [SearchOptimizer.updateTermFrequencies]
  · have hmap : entries.map (fun e =>
        (e.1, e.2 / (entries.length : ℝ) * Real.log ((entries.length : ℝ) + 1))) ≠ [] := by
      simpa using h
    simp only [SearchOptimizer.updateTermFrequencies, if_neg h, if_neg hmap,
      List.length_map, List.map_map]
    refine List.map_congr_left ?_
    intro e _
    simp only [Function.comp_apply]
    refine Prod.ext rfl ?_
    ring

/-- Claim C8 (amended): an index_search option language outside the supported
set en/es/fr/de raises no validation error: getStopwords falls back to the
English stop-word list, so tokenization (and hence indexing) proceeds exactly
as for English. -/
theorem c8_unsupported_language_fallback_amended (language : String)
    (h : language ∉ (["en", "es", "fr", "de"] : List String)) :
    SearchIndexer.getStopwords language = SearchIndexer.getStopwords "en"
    ∧ ∀ content : String,
        SearchIndexer.tokenizeContent content language
          = SearchIndexer.tokenizeContent content "en" := by
  simp only [List.mem_cons, List.mem_singleton, not_or] at h
  obtain ⟨h1, h2, h3, h4, -⟩ := h
  have hsw : SearchIndexer.getStopwords language = SearchIndexer.getStopwords "en" := by
    simp [SearchIndexer.getStopwords, h1, h2, h3, h4]
  refine ⟨hsw, fun content => ?_⟩
  simp only [SearchIndexer.tokenizeContent, hsw]

/-- Witness for the amended claim C8 at the unsupported language it. -/
theorem c8_unsupported_language_fallback_amended_witness :
    ("it" ∉ (["en", "es", "fr", "de"] : List String))
    ∧ SearchIndexer.getStopwords "it" = SearchIndexer.getStopwords "en"
    ∧ SearchIndexer.tokenizeContent "blockchain data" "it"
        = SearchIndexer.tokenizeContent "blockchain data" "en" :=
  ⟨by decide, (c8_unsupported_language_fallback_amended "it" (by decide)).1,
    (c8_unsupported_language_fallback_amended "it" (by decide)).2 "blockchain data"⟩

namespace SearchIndexer

/-- bumpToken raises the looked-up count of the bumped token by one. -/
theorem bumpToken_hlookup_self (acc : List (String × Nat)) (token : String) :
    hlookup (bumpToken acc token) token = some ((hlookup acc token).getD 0 + 1) := by
  induction acc with
  | nil => simp [bumpToken, hlookup]
  | cons e rest ih =>
      by_cases h : e.1 = token
      · simp [bumpToken, hlookup, h]
      · simp [bumpToken, hlookup, h, ih]

/-- bumpToken leaves the looked-up count of other tokens unchanged. -/
theorem bumpToken_hlookup_ne (acc : List (String × Nat)) (token other : String)
    (h : ¬ other = token) :
    hlookup (bumpToken acc token) other = hlookup acc other := by
  have h2 : ¬ token = other := fun hc => h hc.symm
  induction acc with
  | nil => simp [bumpToken, hlookup, h2]
  | cons e rest ih =>
      by_cases he : e.1 = token
      · simp [bumpToken, hlookup, he, h2]
      · by_cases heo : e.1 = other
        · simp [bumpToken, hlookup, he, heo, h]
        · simp [bumpToken, hlookup, he, heo, ih]

/-- The fold of bumpToken computes occurrence counts: the looked-up value of
a token after folding a token list over an accumulator combines the
accumulator count with the count in the list. -/
theorem foldl_bumpToken_hlookup (tokens : List String) :
    ∀ (acc : List (String × Nat)) (token : String),
      hlookup (tokens.foldl bumpToken acc) token
        = if tokens.count token = 0 then hlookup acc token
          else some ((hlookup acc token).getD 0 + tokens.count token) := by
  induction tokens with
  | nil => intro acc token; simp
  | cons tok rest ih =>
      intro acc token
      by_cases h : tok = token
      · subst h
        rw [List.foldl_cons, ih (bumpToken acc tok) tok]
        rw [bumpToken_hlookup_self]
        by_cases hr : rest.count tok = 0
        · simp [List.count_cons, hr]
        · simp only [List.count_cons, if_pos rfl, hr, if_neg hr]
          have : ¬ (rest.count tok + 1 = 0) := by omega
          simp [this, Option.getD]
          omega
      · rw [List.foldl_cons, ih (bumpToken acc tok) token]
        rw [bumpToken_hlookup_ne acc tok token (fun hc => h hc.symm)]
        have hc : (tok :: rest).count token = rest.count token := by
          simp [List.count_cons, h]
        rw [hc]

/-- A successful hlookup is a membership. -/
theorem hlookup_mem {β : Type} (l : List (String × β)) (field : String) (v : β)
    (h : hlookup l field = some v) : (field, v) ∈ l := by
  induction l with
  | nil => simp [hlookup] at h
  | cons e rest ih =>
      by_cases he : e.1 = field
      · rw [hlookup, if_pos he] at h
        have hv : e.2 = v := by injection h
        have hev : e = (field, v) := Prod.ext_iff.mpr ⟨he, hv⟩
        rw [← hev]
        exact List.mem_cons_self _ _
      · rw [hlookup, if_neg he] at h
        exact List.mem_cons_of_mem _ (ih h)

end SearchIndexer

/-- Claim C9: for every indexed document d and every term occurring f > 0
times among the tokens of d.content, the inverted-index write issued by
SearchIndexer.indexDocument for that term has member type:id and score
log(1 + f) * (1 / sqrt(length of d.content)), the character length of the
raw content. -/
theorem c9_posting_score_formula (d : SearchIndexer.SearchDocument)
    (language term : String) (f : Nat)
    (hcount : f = (SearchIndexer.tokenizeContent d.content language).count term)
    (hpos : 0 < f) :
    (SearchIndexer.invertedKey term, d.type ++ ":" ++ d.id,
      Real.log (1 + (f : ℝ)) * (1 / Real.sqrt (d.content.length : ℝ)))
      ∈ SearchIndexer.indexDocumentPostingWrites d language := by
  have hl : hlookup
      (SearchIndexer.calculateTermFrequencies
        (SearchIndexer.tokenizeContent d.content language)) term = some f := by
    unfold SearchIndexer.calculateTermFrequencies
    rw [SearchIndexer.foldl_bumpToken_hlookup]
    rw [if_neg (by omega : ¬ (SearchIndexer.tokenizeContent d.content language).count term = 0)]
    simp [hlookup, ← hcount]
  have hmem := SearchIndexer.hlookup_mem _ _ _ hl
  unfold SearchIndexer.indexDocumentPostingWrites
  exact List.mem_map.mpr ⟨(term, f), hmem, rfl⟩

/-- Witness for claim C9: the round-trip document with content
Hello world hello, term hello occurring twice. -/
theorem c9_posting_score_formula_witness :
    2 = (SearchIndexer.tokenizeContent helloDoc.content "en").count "hello"
    ∧ 0 < 2
    ∧ (SearchIndexer.invertedKey "hello", helloDoc.type ++ ":" ++ helloDoc.id,
        Real.log (1 + ((2 : Nat) : ℝ)) * (1 / Real.sqrt (helloDoc.content.length : ℝ)))
        ∈ SearchIndexer.indexDocumentPostingWrites helloDoc "en" :=
  ⟨by decide, by decide,
    c9_posting_score_formula helloDoc "en" "hello" 2 (by decide) (by decide)⟩

/-- Claim C10: once the optimizer metadata pass has processed a key
search:metadata:type that held a hash, the key holds the single serialized
string of the null-stripped, truncated field map (hash deleted, plain SET),
and the per-document hash read hget(meta type, id) performed by the query
engine filter step never successfully returns a field value for any id (the
key now holds a string, so HGET answers WRONGTYPE). -/
theorem c10_metadata_pass_string_rewrite
    (kv : List (String × SearchOptimizer.KVValue)) (docType : String)
    (fields : List (String × SearchOptimizer.MetaValue))
    (h : hlookup kv (SearchOptimizer.metadataKey docType)
      = some (SearchOptimizer.KVValue.hash fields)) :
    hlookup (SearchOptimizer.optimizeMetadataKey kv (SearchOptimizer.metadataKey docType))
        (SearchOptimizer.metadataKey docType)
      = some (SearchOptimizer.KVValue.str
          (SearchOptimizer.encodeMeta (SearchOptimizer.optimizeMetadataStructure fields)))
    ∧ ∀ (id : String) (v : SearchOptimizer.MetaValue),
        SearchOptimizer.hgetKV
            (SearchOptimizer.optimizeMetadataKey kv (SearchOptimizer.metadataKey docType))
            (SearchOptimizer.metadataKey docType) id
          ≠ Except.ok (some v) := by
  unfold SearchOptimizer.optimizeMetadataKey
  rw [h]
  constructor
  · simp [SearchOptimizer.kvSet, hlookup]
  · intro id v
    simp [SearchOptimizer.hgetKV, SearchOptimizer.kvSet, hlookup]

/-- Witness for claim C10 at the concrete store metaStore0. -/
theorem c10_metadata_pass_string_rewrite_witness :
    hlookup metaStore0 (SearchOptimizer.metadataKey "email")
      = some (SearchOptimizer.KVValue.hash metaFields0)
    ∧ SearchOptimizer.hgetKV
        (SearchOptimizer.optimizeMetadataKey metaStore0 (SearchOptimizer.metadataKey "email"))
        (SearchOptimizer.metadataKey "email") "d1"
      ≠ Except.ok (some (SearchOptimizer.MetaValue.vstr "business")) :=
  ⟨by decide,
    (c10_metadata_pass_string_rewrite metaStore0 "email" metaFields0 (by decide)).2
      "d1" (SearchOptimizer.MetaValue.vstr "business")⟩
